import Mathlib

/-!
A shallow embedding of the jobhunter backend: the in-memory storage layer
(`MemStorage` in the repository's storage module) and the HTTP request
handlers that sit on top of it, together with proofs of the specified
properties.

Modelling conventions:
* A JavaScript `Map<number, T>` is modelled as an association list
  `List (Nat × T)`; `Map.set` updates the value in place (preserving the
  entry's position in insertion order) when the key is present and appends
  otherwise, `Map.get` returns the first entry with the key, and
  `Array.from(map.values())` is the list of values in insertion order.
* Timestamps (`Date` values / `getTime()`) are modelled as integers
  (milliseconds); `setDate(d - k)` used by the `datePosted` filter is
  modelled as subtracting `k` 24-hour days.
* JavaScript string truthiness: a `string` filter field is active exactly
  when it is present and non-empty; an array field is active exactly when
  it is present and non-empty.
* `parseInt` is only ever applied to all-digit strings in this code; on an
  empty string it yields `NaN`, modelled as `none` (any `>=` comparison
  against `NaN` is false).
* Case folding (`toLowerCase`) is modelled with `String.toLower`.
-/

namespace JobHunter

/-! ### Data model (from the shared schema module) -/

/-- A stored user record (`users` table). -/
structure User where
  id : Nat
  username : String
  password : String
  email : String
  userType : String
  companyName : Option String
  usrLocation : Option String
  bio : Option String
deriving DecidableEq, Repr

/-- The insert payload for a user (`insertUserSchema`): every stored field
except the server-assigned `id`. -/
structure InsertUser where
  username : String
  password : String
  email : String
  userType : String
  companyName : Option String
  usrLocation : Option String
  bio : Option String
deriving DecidableEq, Repr

/-- A stored job record (`jobs` table). -/
structure Job where
  id : Nat
  title : String
  company : String
  jobLocation : String
  description : String
  requirements : String
  salary : Option String
  jobType : String
  category : String
  experienceLevel : String
  skills : List String
  postedDate : Int
  employerId : Int
deriving DecidableEq, Repr

/-- The insert payload for a job (`insertJobSchema`). -/
structure InsertJob where
  title : String
  company : String
  jobLocation : String
  description : String
  requirements : String
  salary : Option String
  jobType : String
  category : String
  experienceLevel : String
  skills : List String
  postedDate : Int
  employerId : Int
deriving DecidableEq, Repr

/-- A stored application record (`applications` table). -/
structure Application where
  id : Nat
  jobId : Int
  userId : Int
  name : String
  email : String
  phone : String
  resume : String
  coverLetter : Option String
  status : String
  appliedDate : Int
deriving DecidableEq, Repr

/-- The insert payload for an application (`insertApplicationSchema`). -/
structure InsertApplication where
  jobId : Int
  userId : Int
  name : String
  email : String
  phone : String
  resume : String
  coverLetter : Option String
  status : String
  appliedDate : Int
deriving DecidableEq, Repr

/-- A stored category record (`categories` table). -/
structure Category where
  id : Nat
  name : String
  icon : String
  jobCount : Int
deriving DecidableEq, Repr

/-- The insert payload for a category (`insertCategorySchema`). -/
structure InsertCategory where
  name : String
  icon : String
  jobCount : Int
deriving DecidableEq, Repr

/-! ### The `Map<number, T>` model -/

/-- `Map<number, T>` as an association list in insertion order. -/
abbrev AList (α : Type) := List (Nat × α)

/-- `map.get(k)`: the value of the (unique) entry with key `k`. -/
def mapGet {α : Type} : AList α → Nat → Option α
  | [], _ => none
  | p :: rest, k => if p.1 = k then some p.2 else mapGet rest k

/-- `map.set(k, v)`: update in place if `k` is present (a JS `Map` keeps the
original insertion position), append otherwise. -/
def mapSet {α : Type} : AList α → Nat → α → AList α
  | [], k, v => [(k, v)]
  | p :: rest, k, v => if p.1 = k then (k, v) :: rest else p :: mapSet rest k v

/-- `Array.from(map.values())`: values in insertion order. -/
def mapValues {α : Type} (m : AList α) : List α := m.map Prod.snd


/-! ### String helpers used by `getJobs` -/

/-- JS `hay.includes(needle)`: substring containment. -/
def jsIncludes (hay needle : String) : Bool :=
  decide (List.IsInfix needle.toList hay.toList)

/-- The numeric value of a list of decimal digits (most significant first). -/
def digitsToNat (l : List Char) : Nat :=
  l.foldl (fun n c => n * 10 + (c.toNat - 48)) 0

/-- JS `parseInt` applied to a string consisting only of decimal digits:
`NaN` (modelled as `none`) on the empty string, the numeric value otherwise. -/
def parseIntDigits (s : String) : Option Nat :=
  if s.isEmpty then none else some (digitsToNat s.toList)

/-- `value.replace(/[^\d]/g, '')`: strip every non-digit character. -/
def stripNonDigits (s : String) : String :=
  String.mk (s.toList.filter Char.isDigit)

/-- `parseInt(filters.salaryRange.replace(/[^\d]/g, ''))`: the minimum-salary
threshold parsed from the filter value (`none` = `NaN`). -/
def salaryThreshold (v : String) : Option Nat :=
  parseIntDigits (stripNonDigits v)

/-- `\d{1,3}`, greedy: up to three leading digits together with the rest. -/
def takeDigits3 : List Char → List Char × List Char
  | [] => ([], [])
  | c1 :: r1 =>
    if c1.isDigit then
      match r1 with
      | [] => ([c1], [])
      | c2 :: r2 =>
        if c2.isDigit then
          match r2 with
          | [] => ([c1, c2], [])
          | c3 :: r3 => if c3.isDigit then ([c1, c2, c3], r3) else ([c1, c2], r2)
        else ([c1], r1)
    else ([], c1 :: r1)

/-- `(,\d{3})*`, greedy: the maximal run of `,ddd` groups. -/
def commaGroups : List Char → List Char
  | ',' :: a :: b :: c :: rest =>
    if a.isDigit && b.isDigit && c.isDigit then
      ',' :: a :: b :: c :: commaGroups rest
    else []
  | _ => []

/-- Leftmost match of `salary.match(/\$(\d{1,3}(,\d{3})*)/)`: the first capture
group (the part after the `$`), or `none` when the regex does not match. -/
def dollarMatch : List Char → Option (List Char)
  | [] => none
  | c :: rest =>
    if c = '$' then
      match takeDigits3 rest with
      | ([], _) => dollarMatch rest
      | (ds, r) => some (ds ++ commaGroups r)
    else dollarMatch rest

/-- The job's minimum salary extracted from its `salary` text:
`parseInt(match[1].replace(/,/g, ''))` on the first dollar-amount token. -/
def jobMinSalary (sal : String) : Option Nat :=
  (dollarMatch sal.toList).bind fun tok =>
    parseIntDigits (String.mk (tok.filter fun c => ¬ c = ','))

/-! ### The store (`MemStorage`) -/

/-- The private state of `MemStorage`: four id-keyed maps and four counters. -/
structure Store where
  users : AList User
  jobs : AList Job
  applications : AList Application
  categories : AList Category
  userIdCounter : Nat
  jobIdCounter : Nat
  applicationIdCounter : Nat
  categoryIdCounter : Nat
deriving DecidableEq, Repr

/-- `getUser(id)`. -/
def getUser (s : Store) (id : Nat) : Option User :=
  mapGet s.users id

/-- `getUserByUsername(username)`: first user (insertion order) with exactly
that username (`===`). -/
def getUserByUsername (s : Store) (username : String) : Option User :=
  (mapValues s.users).find? fun u => u.username = username

/-- `createUser(user)`: assign the next id, store, return the new record. -/
def createUser (s : Store) (u : InsertUser) : User × Store :=
  let id := s.userIdCounter
  let newUser : User :=
    { id := id, username := u.username, password := u.password, email := u.email
      userType := u.userType, companyName := u.companyName
      usrLocation := u.usrLocation, bio := u.bio }
  (newUser, { s with users := mapSet s.users id newUser, userIdCounter := id + 1 })

/-- `getJob(id)`. -/
def getJob (s : Store) (id : Nat) : Option Job :=
  mapGet s.jobs id

/-- `getJobsByEmployer(employerId)`. -/
def getJobsByEmployer (s : Store) (employerId : Int) : List Job :=
  (mapValues s.jobs).filter fun j => j.employerId = employerId

/-- `getApplicationsByJob(jobId)`. -/
def getApplicationsByJob (s : Store) (jobId : Int) : List Application :=
  (mapValues s.applications).filter fun a => a.jobId = jobId

/-- `getApplicationsByUser(userId)`. -/
def getApplicationsByUser (s : Store) (userId : Int) : List Application :=
  (mapValues s.applications).filter fun a => a.userId = userId

/-- `createApplication(application)`. -/
def createApplication (s : Store) (a : InsertApplication) : Application × Store :=
  let id := s.applicationIdCounter
  let newApplication : Application :=
    { id := id, jobId := a.jobId, userId := a.userId, name := a.name
      email := a.email, phone := a.phone, resume := a.resume
      coverLetter := a.coverLetter, status := a.status, appliedDate := a.appliedDate }
  (newApplication,
   { s with applications := mapSet s.applications id newApplication
            applicationIdCounter := id + 1 })

/-- `updateApplicationStatus(id, status)`: replace the status field on the
existing record, or return the not-found sentinel (`none`) without mutating. -/
def updateApplicationStatus (s : Store) (id : Nat) (status : String) :
    Option Application × Store :=
  match mapGet s.applications id with
  | none => (none, s)
  | some application =>
    let updatedApplication : Application := { application with status := status }
    (some updatedApplication,
     { s with applications := mapSet s.applications id updatedApplication })

/-- `getCategories()`. -/
def getCategories (s : Store) : List Category :=
  mapValues s.categories

/-- `getCategory(id)`. -/
def getCategory (s : Store) (id : Nat) : Option Category :=
  mapGet s.categories id

/-- `createCategory(category)`. -/
def createCategory (s : Store) (c : InsertCategory) : Category × Store :=
  let id := s.categoryIdCounter
  let newCategory : Category :=
    { id := id, name := c.name, icon := c.icon, jobCount := c.jobCount }
  (newCategory,
   { s with categories := mapSet s.categories id newCategory
            categoryIdCounter := id + 1 })

/-- `incrementCategoryJobCount(id)`: add 1 to `jobCount`, or return the
not-found sentinel without mutating. -/
def incrementCategoryJobCount (s : Store) (id : Nat) : Option Category × Store :=
  match mapGet s.categories id with
  | none => (none, s)
  | some category =>
    let updatedCategory : Category := { category with jobCount := category.jobCount + 1 }
    (some updatedCategory,
     { s with categories := mapSet s.categories id updatedCategory })

/-- `createJob(job)`: assign the next id, store, then scan all categories (in
insertion order) for the first whose name equals the job's category and
increment its job count; return the new job. -/
def createJob (s : Store) (j : InsertJob) : Job × Store :=
  let id := s.jobIdCounter
  let newJob : Job :=
    { id := id, title := j.title, company := j.company, jobLocation := j.jobLocation
      description := j.description, requirements := j.requirements, salary := j.salary
      jobType := j.jobType, category := j.category, experienceLevel := j.experienceLevel
      skills := j.skills, postedDate := j.postedDate, employerId := j.employerId }
  let s1 : Store := { s with jobs := mapSet s.jobs id newJob, jobIdCounter := id + 1 }
  match (mapValues s1.categories).find? (fun cat => cat.name = j.category) with
  | some category => (newJob, (incrementCategoryJobCount s1 category.id).2)
  | none => (newJob, s1)

/-! ### `getJobs` and its filters

The handler always builds a filter object whose fields are individually
optional, so the filter argument is modelled as a structure of options.
A string field is active when present and non-empty, an array field when
present and non-empty (JS truthiness plus the explicit `length > 0` check).
`getJobs` additionally needs the current time for the `datePosted` filter;
it is passed explicitly as `now`. -/

/-- The optional filter object accepted by `getJobs`. -/
structure JobFilters where
  search : Option String := none
  fLocation : Option String := none
  category : Option String := none
  jobType : Option (List String) := none
  experienceLevel : Option (List String) := none
  datePosted : Option String := none
  salaryRange : Option String := none
deriving DecidableEq, Repr

/-- `if (filters.search) { ... }`: case-insensitive substring match against
title OR company OR description. -/
def applySearch (f : JobFilters) (l : List Job) : List Job :=
  match f.search with
  | none => l
  | some s =>
    if s = "" then l
    else
      let searchTerm := s.toLower
      l.filter fun job =>
        jsIncludes job.title.toLower searchTerm ||
        jsIncludes job.company.toLower searchTerm ||
        jsIncludes job.description.toLower searchTerm

/-- `if (filters.location) { ... }`: case-insensitive substring match. -/
def applyLocationFilter (f : JobFilters) (l : List Job) : List Job :=
  match f.fLocation with
  | none => l
  | some s =>
    if s = "" then l
    else
      let locationTerm := s.toLower
      l.filter fun job => jsIncludes job.jobLocation.toLower locationTerm

/-- `if (filters.category) { ... }`: exact (`===`) match. -/
def applyCategoryFilter (f : JobFilters) (l : List Job) : List Job :=
  match f.category with
  | none => l
  | some s =>
    if s = "" then l
    else l.filter fun job => job.category = s

/-- `if (filters.jobType && filters.jobType.length > 0) { ... }`. -/
def applyJobTypeFilter (f : JobFilters) (l : List Job) : List Job :=
  match f.jobType with
  | none => l
  | some ts =>
    if ts.length > 0 then l.filter fun job => ts.contains job.jobType else l

/-- `if (filters.experienceLevel && filters.experienceLevel.length > 0)`. -/
def applyExperienceFilter (f : JobFilters) (l : List Job) : List Job :=
  match f.experienceLevel with
  | none => l
  | some ts =>
    if ts.length > 0 then l.filter fun job => ts.contains job.experienceLevel else l

/-- One 24-hour day in milliseconds; `jobDate.setDate(now.getDate() - k)` is
modelled as `now - k * dayMs`. -/
def dayMs : Int := 86400000

/-- `if (filters.datePosted) { switch ... }`: keep jobs posted within the
window; any other value (including `all`) imposes no constraint. -/
def applyDatePostedFilter (now : Int) (f : JobFilters) (l : List Job) : List Job :=
  match f.datePosted with
  | none => l
  | some d =>
    if d = "" then l
    else if d = "last24h" then l.filter fun job => now - 1 * dayMs ≤ job.postedDate
    else if d = "last3d" then l.filter fun job => now - 3 * dayMs ≤ job.postedDate
    else if d = "last7d" then l.filter fun job => now - 7 * dayMs ≤ job.postedDate
    else if d = "last14d" then l.filter fun job => now - 14 * dayMs ≤ job.postedDate
    else l

/-- `if (filters.salaryRange) { ... }`: keep jobs whose extracted minimum
salary is `>=` the parsed threshold; a `NaN` threshold (no digits in the
filter value), a missing `salary`, or an unparseable `salary` all fail the
comparison. -/
def applySalaryFilter (f : JobFilters) (l : List Job) : List Job :=
  match f.salaryRange with
  | none => l
  | some v =>
    if v = "" then l
    else
      match salaryThreshold v with
      | none => l.filter fun _ => false
      | some minSalary =>
        l.filter fun job =>
          match job.salary with
          | none => false
          | some sal =>
            match jobMinSalary sal with
            | none => false
            | some jobMin => minSalary ≤ jobMin

/-- `jobs.sort((a, b) => new Date(b.postedDate).getTime() - new
Date(a.postedDate).getTime())`: a stable sort by `postedDate` descending. -/
def sortByPostedDesc (l : List Job) : List Job :=
  l.mergeSort fun a b => decide (b.postedDate ≤ a.postedDate)

/-- `getJobs(filters)`: apply the seven filters in source order, then sort by
most recent. -/
def getJobs (now : Int) (s : Store) (f : JobFilters) : List Job :=
  sortByPostedDesc
    (applySalaryFilter f
      (applyDatePostedFilter now f
        (applyExperienceFilter f
          (applyJobTypeFilter f
            (applyCategoryFilter f
              (applyLocationFilter f
                (applySearch f (mapValues s.jobs))))))))

/-! ### The spec-side conjunction predicate for `getJobs`

The specification describes `getJobs` as keeping exactly the jobs that
satisfy every supplied filter's predicate, each an independent per-filter
predicate, combined by AND; a filter counts as supplied when it is set to a
non-empty value (setting it to an empty string or empty list is the same as
leaving it unset). These predicates are written independently below and
`getJobs` is proved equivalent to filtering by their conjunction. -/

/-- Per-filter predicate: `search`. -/
def matchesSearch (f : JobFilters) : Job → Bool :=
  match f.search with
  | none => fun _ => true
  | some s =>
    if s = "" then fun _ => true
    else fun job =>
      jsIncludes job.title.toLower s.toLower ||
      jsIncludes job.company.toLower s.toLower ||
      jsIncludes job.description.toLower s.toLower

/-- Per-filter predicate: `location`. -/
def matchesLocation (f : JobFilters) : Job → Bool :=
  match f.fLocation with
  | none => fun _ => true
  | some s =>
    if s = "" then fun _ => true
    else fun job => jsIncludes job.jobLocation.toLower s.toLower

/-- Per-filter predicate: `category` (exact match). -/
def matchesCategory (f : JobFilters) : Job → Bool :=
  match f.category with
  | none => fun _ => true
  | some s => if s = "" then fun _ => true else fun job => job.category = s

/-- Per-filter predicate: `jobType` (membership in the supplied set). -/
def matchesJobType (f : JobFilters) : Job → Bool :=
  match f.jobType with
  | none => fun _ => true
  | some ts => if ts.length > 0 then fun job => ts.contains job.jobType else fun _ => true

/-- Per-filter predicate: `experienceLevel` (membership). -/
def matchesExperience (f : JobFilters) : Job → Bool :=
  match f.experienceLevel with
  | none => fun _ => true
  | some ts =>
    if ts.length > 0 then fun job => ts.contains job.experienceLevel else fun _ => true

/-- Per-filter predicate: `datePosted` (posted within the window). -/
def matchesDatePosted (now : Int) (f : JobFilters) : Job → Bool :=
  match f.datePosted with
  | none => fun _ => true
  | some d =>
    if d = "" then fun _ => true
    else if d = "last24h" then fun job => now - 1 * dayMs ≤ job.postedDate
    else if d = "last3d" then fun job => now - 3 * dayMs ≤ job.postedDate
    else if d = "last7d" then fun job => now - 7 * dayMs ≤ job.postedDate
    else if d = "last14d" then fun job => now - 14 * dayMs ≤ job.postedDate
    else fun _ => true

/-- Per-filter predicate: `salaryRange` (extracted minimum salary at least
the parsed threshold). -/
def matchesSalary (f : JobFilters) : Job → Bool :=
  match f.salaryRange with
  | none => fun _ => true
  | some v =>
    if v = "" then fun _ => true
    else
      match salaryThreshold v with
      | none => fun _ => false
      | some minSalary => fun job =>
        match job.salary with
        | none => false
        | some sal =>
          match jobMinSalary sal with
          | none => false
          | some jobMin => minSalary ≤ jobMin

/-- The conjunction of all seven per-filter predicates. -/
def jobMatches (now : Int) (f : JobFilters) (job : Job) : Bool :=
  matchesSearch f job && matchesLocation f job && matchesCategory f job &&
  matchesJobType f job && matchesExperience f job &&
  matchesDatePosted now f job && matchesSalary f job

/-! ### Construction-time seeding, operations, and reachable states -/

/-- The eight demo categories seeded by the `MemStorage` constructor. -/
def defaultCategories : List InsertCategory :=
  [ { name := "Technology", icon := "fa-laptop-code", jobCount := 1245 },
    { name := "Business", icon := "fa-chart-line", jobCount := 879 },
    { name := "Design", icon := "fa-paint-brush", jobCount := 623 },
    { name := "Marketing", icon := "fa-bullhorn", jobCount := 542 },
    { name := "Healthcare", icon := "fa-heartbeat", jobCount := 1032 },
    { name := "Education", icon := "fa-graduation-cap", jobCount := 478 },
    { name := "Legal", icon := "fa-gavel", jobCount := 326 },
    { name := "Hospitality", icon := "fa-utensils", jobCount := 587 } ]

/-- The store before seeding: empty maps, every counter at 1. -/
def emptyStore : Store :=
  { users := [], jobs := [], applications := [], categories := []
    userIdCounter := 1, jobIdCounter := 1, applicationIdCounter := 1, categoryIdCounter := 1 }

/-- The store produced by the `MemStorage` constructor: the empty store after
`createCategory` on each default category. -/
def initialStore : Store :=
  defaultCategories.foldl (fun s c => (createCategory s c).2) emptyStore

/-- A state-mutating store operation (the read-only operations do not change
the state and need no step). -/
inductive Op where
  | doCreateUser (u : InsertUser)
  | doCreateJob (j : InsertJob)
  | doCreateApplication (a : InsertApplication)
  | doCreateCategory (c : InsertCategory)
  | doUpdateApplicationStatus (id : Nat) (status : String)
  | doIncrementCategoryJobCount (id : Nat)

/-- Apply one operation to the store, keeping only the new state. -/
def applyOp (s : Store) : Op → Store
  | .doCreateUser u => (createUser s u).2
  | .doCreateJob j => (createJob s j).2
  | .doCreateApplication a => (createApplication s a).2
  | .doCreateCategory c => (createCategory s c).2
  | .doUpdateApplicationStatus id status => (updateApplicationStatus s id status).2
  | .doIncrementCategoryJobCount id => (incrementCategoryJobCount s id).2

/-- Run a sequence of operations. -/
def runOps (s : Store) (ops : List Op) : Store :=
  ops.foldl applyOp s

/-- A store state reachable from the freshly-constructed store by some
sequence of operations. -/
def Reachable (s : Store) : Prop :=
  ∃ ops : List Op, runOps initialStore ops = s

/-- Invariant of one id-keyed collection: the keys are exactly `1..length`
in insertion order, every record's `id` field equals its key, and the next
counter value is `length + 1`. -/
def MapInv {α : Type} (getId : α → Nat) (m : AList α) (ctr : Nat) : Prop :=
  m.map Prod.fst = List.range' 1 m.length ∧
  (∀ p ∈ m, getId p.2 = p.1) ∧
  ctr = m.length + 1

/-- Every id present in `m` is still present in `m'` and still identifies a
record bearing the same `id` field: ids are never dropped or reassigned. -/
def IdPreserved {α : Type} (getId : α → Nat) (m m' : AList α) : Prop :=
  ∀ k r, mapGet m k = some r →
    ∃ r', mapGet m' k = some r' ∧ getId r' = getId r

/-- The store invariant: `MapInv` for each of the four collections. -/
def StoreInv (s : Store) : Prop :=
  MapInv User.id s.users s.userIdCounter ∧
  MapInv Job.id s.jobs s.jobIdCounter ∧
  MapInv Application.id s.applications s.applicationIdCounter ∧
  MapInv Category.id s.categories s.categoryIdCounter

/-! ### The request-handler layer

Request bodies are modelled as structures of optional fields (a field is
`none` when the JSON body omits it).  `insertUserSchema` /`insertJobSchema` /
`insertApplicationSchema` come from `createInsertSchema` over the table
definitions: a `notNull` column without a database default is a required
field, a nullable column is optional; parsing fails (a `ZodError`, mapped to
a 400 response) when a required field is absent.  Values are taken as
already well-typed, which is the part of validation these claims depend
on. -/

/-- A handler's outcome: an HTTP status with a JSON payload, or an error
status with a message. -/
inductive HandlerResult (α : Type) where
  | ok (status : Nat) (value : α)
  | err (status : Nat) (message : String)
deriving DecidableEq, Repr

/-- A POST /api/users request body. -/
structure UserBody where
  username : Option String := none
  password : Option String := none
  email : Option String := none
  userType : Option String := none
  companyName : Option String := none
  usrLocation : Option String := none
  bio : Option String := none
deriving DecidableEq, Repr

/-- `insertUserSchema.parse`: username, password, email and userType are
required (`notNull` columns); the remaining columns are nullable, hence
optional. -/
def parseInsertUser (b : UserBody) : Option InsertUser :=
  match b.username, b.password, b.email, b.userType with
  | some username, some password, some email, some userType =>
    some { username := username, password := password, email := email
           userType := userType, companyName := b.companyName
           usrLocation := b.usrLocation, bio := b.bio }
  | _, _, _, _ => none

/-- A POST /api/jobs request body. -/
structure JobBody where
  title : Option String := none
  company : Option String := none
  jobLocation : Option String := none
  description : Option String := none
  requirements : Option String := none
  salary : Option String := none
  jobType : Option String := none
  category : Option String := none
  experienceLevel : Option String := none
  skills : Option (List String) := none
  postedDate : Option Int := none
  employerId : Option Int := none
deriving DecidableEq, Repr

/-- `insertJobSchema.parse`: every picked column except the nullable `salary`
is `notNull` without a default, hence required — including `postedDate`. -/
def parseInsertJob (b : JobBody) : Option InsertJob :=
  match b.title, b.company, b.jobLocation, b.description, b.requirements,
        b.jobType, b.category, b.experienceLevel, b.skills, b.postedDate,
        b.employerId with
  | some title, some company, some jobLocation, some description,
    some requirements, some jobType, some category, some experienceLevel,
    some skills, some postedDate, some employerId =>
    some { title := title, company := company, jobLocation := jobLocation
           description := description, requirements := requirements
           salary := b.salary, jobType := jobType, category := category
           experienceLevel := experienceLevel, skills := skills
           postedDate := postedDate, employerId := employerId }
  | _, _, _, _, _, _, _, _, _, _, _ => none

/-- A POST /api/applications request body. -/
structure ApplicationBody where
  jobId : Option Int := none
  userId : Option Int := none
  name : Option String := none
  email : Option String := none
  phone : Option String := none
  resume : Option String := none
  coverLetter : Option String := none
  status : Option String := none
  appliedDate : Option Int := none
deriving DecidableEq, Repr

/-- `insertApplicationSchema.parse`: every picked column except the nullable
`coverLetter` is `notNull` without a default, hence required — including
`status` and `appliedDate`. -/
def parseInsertApplication (b : ApplicationBody) : Option InsertApplication :=
  match b.jobId, b.userId, b.name, b.email, b.phone, b.resume, b.status,
        b.appliedDate with
  | some jobId, some userId, some name, some email, some phone, some resume,
    some status, some appliedDate =>
    some { jobId := jobId, userId := userId, name := name, email := email
           phone := phone, resume := resume, coverLetter := b.coverLetter
           status := status, appliedDate := appliedDate }
  | _, _, _, _, _, _, _, _ => none

/-- The POST /api/users handler: validate, reject a duplicate username with
400, otherwise create and return 201. -/
def postUsers (s : Store) (b : UserBody) : HandlerResult User × Store :=
  match parseInsertUser b with
  | none => (.err 400 "validation error", s)
  | some userData =>
    match getUserByUsername s userData.username with
    | some _ => (.err 400 "Username already exists", s)
    | none =>
      let created := createUser s userData
      (.ok 201 created.1, created.2)

/-- The POST /api/jobs handler: validate, then create.  The handler's
`if (!jobData.postedDate) jobData.postedDate = new Date()` default never
fires after a successful parse: `postedDate` is a required field, and a
parsed `Date` object is always truthy in JS. -/
def postJobs (s : Store) (b : JobBody) : HandlerResult Job × Store :=
  match parseInsertJob b with
  | none => (.err 400 "validation error", s)
  | some jobData =>
    let created := createJob s jobData
    (.ok 201 created.1, created.2)

/-- The POST /api/applications handler: validate, then create.  After a
successful parse `status` is a required string, so the handler's
`if (!applicationData.status)` default fires only when that string is ""
(the one falsy string); the `appliedDate` default never fires, since a
parsed `Date` object is always truthy in JS. -/
def postApplications (s : Store) (b : ApplicationBody) :
    HandlerResult Application × Store :=
  match parseInsertApplication b with
  | none => (.err 400 "validation error", s)
  | some applicationData =>
    let applicationData :=
      if applicationData.status = "" then { applicationData with status := "applied" }
      else applicationData
    let created := createApplication s applicationData
    (.ok 201 created.1, created.2)

/-! ### Concrete example data (used to instantiate the theorems) -/

/-- An example job used to instantiate theorems on concrete inputs. -/
def exampleJob : Job :=
  { id := 1, title := "Product Designer", company := "Acme", jobLocation := "Remote"
    description := "Design things", requirements := "Figma", salary := some "$60,000 - $80,000"
    jobType := "full-time", category := "Design", experienceLevel := "mid"
    skills := ["figma"], postedDate := 1000, employerId := 7 }

/-- A one-job store used to instantiate theorems on concrete inputs. -/
def exampleJobStore : Store :=
  { users := [], jobs := [(1, exampleJob)], applications := [], categories := []
    userIdCounter := 1, jobIdCounter := 2, applicationIdCounter := 1, categoryIdCounter := 1 }

/-- A minimal job posted at time `d` with id `i`, for concrete instances. -/
def jobAt (i : Nat) (d : Int) : Job :=
  { id := i, title := "T", company := "C", jobLocation := "L", description := "D"
    requirements := "R", salary := none, jobType := "full-time"
    category := "Design", experienceLevel := "entry", skills := []
    postedDate := d, employerId := 1 }

/-- Three jobs posted at 100 < 200 < 300, inserted out of date order. -/
def threeJobStore : Store :=
  { users := [], jobs := [(1, jobAt 1 200), (2, jobAt 2 100), (3, jobAt 3 300)]
    applications := [], categories := []
    userIdCounter := 1, jobIdCounter := 4, applicationIdCounter := 1
    categoryIdCounter := 1 }

/-- An example application used to instantiate theorems on concrete inputs. -/
def exampleApplication : Application :=
  { id := 1, jobId := 4, userId := 2, name := "Dana", email := "dana@mail.test"
    phone := "555-0100", resume := "cv.pdf", coverLetter := none
    status := "applied", appliedDate := 500 }

/-- A one-application store used to instantiate theorems on concrete inputs. -/
def exampleApplicationStore : Store :=
  { users := [], jobs := [], applications := [(1, exampleApplication)], categories := []
    userIdCounter := 1, jobIdCounter := 1, applicationIdCounter := 2, categoryIdCounter := 1 }

/-- Operations that add two categories both named "Remote Work" on top of the
seeded store. -/
def dupCategoryOps : List Op :=
  [ .doCreateCategory { name := "Remote Work", icon := "fa-house", jobCount := 5 },
    .doCreateCategory { name := "Remote Work", icon := "fa-wifi", jobCount := 9 } ]

/-- The seeded store after creating two categories with the same name
(ids 9 and 10). -/
def dupCategoryStore : Store :=
  runOps initialStore dupCategoryOps

/-- An insert payload whose category matches the duplicated name. -/
def remoteJobInsert : InsertJob :=
  { title := "Support Agent", company := "Acme", jobLocation := "Anywhere"
    description := "Help customers", requirements := "Empathy", salary := none
    jobType := "full-time", category := "Remote Work", experienceLevel := "entry"
    skills := [], postedDate := 2000, employerId := 3 }

/-- An insert payload whose category matches the seeded "Technology"
category. -/
def techJobInsert : InsertJob :=
  { title := "Engineer", company := "Acme", jobLocation := "NYC"
    description := "Build things", requirements := "TS", salary := some "$100,000"
    jobType := "full-time", category := "Technology", experienceLevel := "senior"
    skills := ["ts"], postedDate := 3000, employerId := 3 }

/-- An application insert payload used to instantiate theorems. -/
def danaInsert : InsertApplication :=
  { jobId := 4, userId := 2, name := "Dana", email := "dana@mail.test"
    phone := "555-0100", resume := "cv.pdf", coverLetter := none
    status := "applied", appliedDate := 500 }

/-- A category insert payload used to instantiate theorems. -/
def remoteCategoryInsert : InsertCategory :=
  { name := "Remote Work", icon := "fa-house", jobCount := 5 }

/-- A valid POST /api/users body. -/
def aliceBody : UserBody :=
  { username := some "alice", password := some "pw", email := some "alice@mail.test"
    userType := some "jobseeker" }

/-- The parsed form of `aliceBody`. -/
def aliceInsert : InsertUser :=
  { username := "alice", password := "pw", email := "alice@mail.test"
    userType := "jobseeker", companyName := none, usrLocation := none, bio := none }

/-- The stored user record created from `aliceBody` on the seeded store. -/
def aliceUser : User :=
  { id := 1, username := "alice", password := "pw", email := "alice@mail.test"
    userType := "jobseeker", companyName := none, usrLocation := none, bio := none }

/-- The seeded store after a successful POST /api/users with `aliceBody`. -/
def storeWithAlice : Store :=
  (postUsers initialStore aliceBody).2

/-- A POST /api/jobs body that supplies every required field except
`postedDate` (the omission the spec says is defaulted to the current
time). -/
def jobBodyNoPostedDate : JobBody :=
  { title := some "Engineer", company := some "Acme", jobLocation := some "NYC"
    description := some "Build things", requirements := some "TS"
    salary := some "$100,000", jobType := some "full-time"
    category := some "Technology", experienceLevel := some "senior"
    skills := some ["ts"], postedDate := none, employerId := some 3 }

/-- A POST /api/applications body that omits only `status`. -/
def applBodyNoStatus : ApplicationBody :=
  { jobId := some 1, userId := some 2, name := some "Dana"
    email := some "dana@mail.test", phone := some "555-0100"
    resume := some "cv.pdf", coverLetter := none, status := none
    appliedDate := some 500 }

/-- A POST /api/applications body that omits only `appliedDate`. -/
def applBodyNoAppliedDate : ApplicationBody :=
  { jobId := some 1, userId := some 2, name := some "Dana"
    email := some "dana@mail.test", phone := some "555-0100"
    resume := some "cv.pdf", coverLetter := none, status := some "applied"
    appliedDate := none }

/-! ### Properties of the map model -/

theorem mapGet_mapSet_self {α : Type} (m : AList α) (k : Nat) (v : α) :
    mapGet (mapSet m k v) k = some v := by
  induction m with
  | nil => simp [mapGet, mapSet]
  | cons p rest ih =>
    by_cases h : p.1 = k <;> simp [mapGet, mapSet, h, ih]

theorem mapGet_mapSet_ne {α : Type} (m : AList α) (k k' : Nat) (v : α)
    (h : k' ≠ k) : mapGet (mapSet m k v) k' = mapGet m k' := by
  induction m with
  | nil => simp [mapGet, mapSet, Ne.symm h]
  | cons p rest ih =>
    by_cases hp : p.1 = k
    · subst hp
      simp [mapGet, mapSet, Ne.symm h]
    · by_cases hp' : p.1 = k' <;> simp [mapGet, mapSet, hp, hp', ih, h]

theorem mapSet_of_not_mem_keys {α : Type} (m : AList α) (k : Nat) (v : α)
    (h : k ∉ m.map Prod.fst) : mapSet m k v = m ++ [(k, v)] := by
  induction m with
  | nil => simp [mapSet]
  | cons p rest ih =>
    simp only [List.map_cons, List.mem_cons] at h
    push_neg at h
    simp [mapSet, Ne.symm h.1, ih h.2]

theorem mapGet_append_left {α : Type} (m m' : AList α) (k : Nat) (v : α)
    (h : mapGet m k = some v) : mapGet (m ++ m') k = some v := by
  induction m with
  | nil => simp [mapGet] at h
  | cons p rest ih =>
    by_cases hp : p.1 = k <;> simp_all [mapGet]

theorem mapGet_eq_none_iff {α : Type} (m : AList α) (k : Nat) :
    mapGet m k = none ↔ k ∉ m.map Prod.fst := by
  induction m with
  | nil => simp [mapGet]
  | cons p rest ih =>
    by_cases hp : p.1 = k
    · subst hp
      simp [mapGet]
    · simp [mapGet, hp, ih, Ne.symm hp]

theorem mapGet_some_mem {α : Type} (m : AList α) (k : Nat) (v : α)
    (h : mapGet m k = some v) : (k, v) ∈ m := by
  induction m with
  | nil => simp [mapGet] at h
  | cons p rest ih =>
    by_cases hp : p.1 = k
    · simp [mapGet, hp] at h
      simp [← h, ← hp]
    · simp [mapGet, hp] at h
      exact List.mem_cons_of_mem _ (ih h)

theorem mapGet_of_mem_of_nodup {α : Type} (m : AList α) (k : Nat) (v : α)
    (hmem : (k, v) ∈ m) (hnd : (m.map Prod.fst).Nodup) : mapGet m k = some v := by
  induction m with
  | nil => simp at hmem
  | cons p rest ih =>
    simp only [List.map_cons, List.nodup_cons] at hnd
    rcases List.mem_cons.1 hmem with h | h
    · simp [mapGet, ← h]
    · have hk : k ∈ rest.map Prod.fst := List.mem_map_of_mem Prod.fst h
      have : p.1 ≠ k := fun he => hnd.1 (he ▸ hk)
      simp [mapGet, this, ih h hnd.2]

theorem map_fst_mapSet_of_mem {α : Type} (m : AList α) (k : Nat) (v : α)
    (h : k ∈ m.map Prod.fst) : (mapSet m k v).map Prod.fst = m.map Prod.fst := by
  induction m with
  | nil => simp at h
  | cons p rest ih =>
    by_cases hp : p.1 = k
    · simp [mapSet, hp]
    · simp only [List.map_cons, List.mem_cons] at h
      rcases h with h | h
      · exact absurd h.symm hp
      · simp [mapSet, hp, ih h]

theorem mem_mapSet {α : Type} (m : AList α) (k : Nat) (v : α) (q : Nat × α)
    (h : q ∈ mapSet m k v) : q = (k, v) ∨ q ∈ m := by
  induction m with
  | nil => simp [mapSet] at h; simp [h]
  | cons p rest ih =>
    by_cases hp : p.1 = k
    · simp [mapSet, hp] at h
      rcases h with h | h
      · simp [h]
      · simp [h]
    · simp [mapSet, hp] at h
      rcases h with h | h
      · simp [h]
      · rcases ih h with h' | h'
        · simp [h']
        · simp [h']

theorem applySearch_eq_filter (f : JobFilters) (l : List Job) :
    applySearch f l = l.filter (matchesSearch f) := by
  cases hf : f.search with
  | none => simp [applySearch, matchesSearch, hf]
  | some s => by_cases hs : s = "" <;> simp [applySearch, matchesSearch, hf, hs]

theorem applyLocationFilter_eq_filter (f : JobFilters) (l : List Job) :
    applyLocationFilter f l = l.filter (matchesLocation f) := by
  cases hf : f.fLocation with
  | none => simp [applyLocationFilter, matchesLocation, hf]
  | some s => by_cases hs : s = "" <;> simp [applyLocationFilter, matchesLocation, hf, hs]

theorem applyCategoryFilter_eq_filter (f : JobFilters) (l : List Job) :
    applyCategoryFilter f l = l.filter (matchesCategory f) := by
  cases hf : f.category with
  | none => simp [applyCategoryFilter, matchesCategory, hf]
  | some s => by_cases hs : s = "" <;> simp [applyCategoryFilter, matchesCategory, hf, hs]

theorem applyJobTypeFilter_eq_filter (f : JobFilters) (l : List Job) :
    applyJobTypeFilter f l = l.filter (matchesJobType f) := by
  cases hf : f.jobType with
  | none => simp [applyJobTypeFilter, matchesJobType, hf]
  | some ts => by_cases hs : ts.length > 0 <;> simp [applyJobTypeFilter, matchesJobType, hf, hs]

theorem applyExperienceFilter_eq_filter (f : JobFilters) (l : List Job) :
    applyExperienceFilter f l = l.filter (matchesExperience f) := by
  cases hf : f.experienceLevel with
  | none => simp [applyExperienceFilter, matchesExperience, hf]
  | some ts =>
    by_cases hs : ts.length > 0 <;> simp [applyExperienceFilter, matchesExperience, hf, hs]

theorem applyDatePostedFilter_eq_filter (now : Int) (f : JobFilters) (l : List Job) :
    applyDatePostedFilter now f l = l.filter (matchesDatePosted now f) := by
  cases hf : f.datePosted with
  | none => simp [applyDatePostedFilter, matchesDatePosted, hf]
  | some d =>
    by_cases h0 : d = ""
    · simp [applyDatePostedFilter, matchesDatePosted, hf, h0]
    · by_cases h1 : d = "last24h"
      · simp [applyDatePostedFilter, matchesDatePosted, hf, h0, h1]
      · by_cases h2 : d = "last3d"
        · simp [applyDatePostedFilter, matchesDatePosted, hf, h0, h1, h2]
        · by_cases h3 : d = "last7d"
          · simp [applyDatePostedFilter, matchesDatePosted, hf, h0, h1, h2, h3]
          · by_cases h4 : d = "last14d" <;>
              simp [applyDatePostedFilter, matchesDatePosted, hf, h0, h1, h2, h3, h4]

theorem applySalaryFilter_eq_filter (f : JobFilters) (l : List Job) :
    applySalaryFilter f l = l.filter (matchesSalary f) := by
  cases hf : f.salaryRange with
  | none => simp [applySalaryFilter, matchesSalary, hf]
  | some v =>
    by_cases hv : v = ""
    · simp [applySalaryFilter, matchesSalary, hf, hv]
    · cases ht : salaryThreshold v <;> simp [applySalaryFilter, matchesSalary, hf, hv, ht]

theorem bool_and_shuffle (b1 b2 b3 b4 b5 b6 b7 : Bool) :
    ((((((b7 && b6) && b5) && b4) && b3) && b2) && b1) =
    (b1 && b2 && b3 && b4 && b5 && b6 && b7) := by
  cases b1 <;> cases b2 <;> cases b3 <;> cases b4 <;> cases b5 <;> cases b6 <;> cases b7 <;> rfl

/-- The seven sequential filter passes of `getJobs` are one pass with the
conjunction of the seven independent per-filter predicates. -/
theorem filterChain_eq_jobMatches (now : Int) (f : JobFilters) (l : List Job) :
    applySalaryFilter f
      (applyDatePostedFilter now f
        (applyExperienceFilter f
          (applyJobTypeFilter f
            (applyCategoryFilter f
              (applyLocationFilter f (applySearch f l)))))) =
    l.filter (jobMatches now f) := by
  rw [applySearch_eq_filter, applyLocationFilter_eq_filter, applyCategoryFilter_eq_filter,
      applyJobTypeFilter_eq_filter, applyExperienceFilter_eq_filter,
      applyDatePostedFilter_eq_filter, applySalaryFilter_eq_filter,
      List.filter_filter, List.filter_filter, List.filter_filter,
      List.filter_filter, List.filter_filter, List.filter_filter]
  apply List.filter_congr
  intro job _
  simp only [jobMatches]
  generalize matchesSearch f job = b1
  generalize matchesLocation f job = b2
  generalize matchesCategory f job = b3
  generalize matchesJobType f job = b4
  generalize matchesExperience f job = b5
  generalize matchesDatePosted now f job = b6
  generalize matchesSalary f job = b7
  exact bool_and_shuffle b1 b2 b3 b4 b5 b6 b7

/-! ### The store invariant and reachability -/

theorem mapInv_fresh_key {α : Type} (getId : α → Nat) (m : AList α) (ctr : Nat)
    (h : MapInv getId m ctr) : ctr ∉ m.map Prod.fst := by
  obtain ⟨hkeys, -, hctr⟩ := h
  intro hmem
  rw [hkeys] at hmem
  have := List.mem_range'_1.1 hmem
  omega

theorem mapInv_create {α : Type} (getId : α → Nat) (m : AList α) (ctr : Nat)
    (h : MapInv getId m ctr) (v : α) (hv : getId v = ctr) :
    MapInv getId (mapSet m ctr v) (ctr + 1) := by
  obtain ⟨hkeys, hid, hctr⟩ := h
  rw [mapSet_of_not_mem_keys m ctr v (mapInv_fresh_key getId m ctr ⟨hkeys, hid, hctr⟩)]
  refine ⟨?_, ?_, ?_⟩
  · rw [List.map_append, hkeys, List.length_append]
    simp only [List.map_cons, List.map_nil, List.length_cons, List.length_nil]
    rw [List.range'_1_concat]
    congr 2
    omega
  · intro p hp
    rcases List.mem_append.1 hp with hp | hp
    · exact hid p hp
    · simp only [List.mem_singleton] at hp
      simp [hp, hv]
  · simp [hctr]

theorem mapInv_update {α : Type} (getId : α → Nat) (m : AList α) (ctr : Nat)
    (h : MapInv getId m ctr) (k : Nat) (v v' : α)
    (hget : mapGet m k = some v) (hid' : getId v' = getId v) :
    MapInv getId (mapSet m k v') ctr := by
  obtain ⟨hkeys, hid, hctr⟩ := h
  have hmem : (k, v) ∈ m := mapGet_some_mem m k v hget
  have hkmem : k ∈ m.map Prod.fst := List.mem_map_of_mem Prod.fst hmem
  have hkeys' : (mapSet m k v').map Prod.fst = m.map Prod.fst :=
    map_fst_mapSet_of_mem m k v' hkmem
  have hlen : (mapSet m k v').length = m.length := by
    have := congrArg List.length hkeys'
    simpa using this
  refine ⟨?_, ?_, ?_⟩
  · rw [hkeys', hkeys, hlen]
  · intro p hp
    rcases mem_mapSet m k v' p hp with hp' | hp'
    · have : getId v = k := hid (k, v) hmem
      simp [hp', hid', this]
    · exact hid p hp'
  · rw [hlen]; exact hctr

theorem storeInv_increment (s : Store) (id : Nat) (h : StoreInv s) :
    StoreInv (incrementCategoryJobCount s id).2 := by
  obtain ⟨hu, hj, ha, hc⟩ := h
  unfold incrementCategoryJobCount
  cases hg : mapGet s.categories id with
  | none => exact ⟨hu, hj, ha, hc⟩
  | some cat => exact ⟨hu, hj, ha, mapInv_update _ _ _ hc _ _ _ hg rfl⟩

theorem storeInv_createUser (s : Store) (u : InsertUser) (h : StoreInv s) :
    StoreInv (createUser s u).2 :=
  ⟨mapInv_create _ _ _ h.1 _ rfl, h.2.1, h.2.2.1, h.2.2.2⟩

theorem storeInv_createApplication (s : Store) (a : InsertApplication) (h : StoreInv s) :
    StoreInv (createApplication s a).2 :=
  ⟨h.1, h.2.1, mapInv_create _ _ _ h.2.2.1 _ rfl, h.2.2.2⟩

theorem storeInv_createCategory (s : Store) (c : InsertCategory) (h : StoreInv s) :
    StoreInv (createCategory s c).2 :=
  ⟨h.1, h.2.1, h.2.2.1, mapInv_create _ _ _ h.2.2.2 _ rfl⟩

theorem storeInv_createJob (s : Store) (j : InsertJob) (h : StoreInv s) :
    StoreInv (createJob s j).2 := by
  obtain ⟨hu, hj, ha, hc⟩ := h
  simp only [createJob]
  split
  · exact storeInv_increment _ _ ⟨hu, mapInv_create _ _ _ hj _ rfl, ha, hc⟩
  · exact ⟨hu, mapInv_create _ _ _ hj _ rfl, ha, hc⟩

theorem storeInv_updateApplicationStatus (s : Store) (id : Nat) (st : String)
    (h : StoreInv s) : StoreInv (updateApplicationStatus s id st).2 := by
  obtain ⟨hu, hj, ha, hc⟩ := h
  unfold updateApplicationStatus
  cases hg : mapGet s.applications id with
  | none => exact ⟨hu, hj, ha, hc⟩
  | some app => exact ⟨hu, hj, mapInv_update _ _ _ ha _ _ _ hg rfl, hc⟩

theorem storeInv_applyOp (s : Store) (op : Op) (h : StoreInv s) :
    StoreInv (applyOp s op) := by
  cases op with
  | doCreateUser u => exact storeInv_createUser s u h
  | doCreateJob j => exact storeInv_createJob s j h
  | doCreateApplication a => exact storeInv_createApplication s a h
  | doCreateCategory c => exact storeInv_createCategory s c h
  | doUpdateApplicationStatus id st => exact storeInv_updateApplicationStatus s id st h
  | doIncrementCategoryJobCount id => exact storeInv_increment s id h

theorem storeInv_runOps (ops : List Op) (s : Store) (h : StoreInv s) :
    StoreInv (runOps s ops) := by
  induction ops generalizing s with
  | nil => exact h
  | cons op rest ih => exact ih (applyOp s op) (storeInv_applyOp s op h)

theorem storeInv_emptyStore : StoreInv emptyStore := by
  refine ⟨?_, ?_, ?_, ?_⟩ <;> exact ⟨by simp [emptyStore], by simp [emptyStore], by simp [emptyStore]⟩

theorem storeInv_initialStore : StoreInv initialStore := by
  have step : ∀ (cs : List InsertCategory) (s : Store), StoreInv s →
      StoreInv (cs.foldl (fun s c => (createCategory s c).2) s) := by
    intro cs
    induction cs with
    | nil => intro s hs; exact hs
    | cons c rest ih => intro s hs; exact ih _ (storeInv_createCategory s c hs)
  exact step defaultCategories emptyStore storeInv_emptyStore

theorem storeInv_reachable (s : Store) (h : Reachable s) : StoreInv s := by
  obtain ⟨ops, rfl⟩ := h
  exact storeInv_runOps ops initialStore storeInv_initialStore

theorem mapInv_nodup_keys {α : Type} (getId : α → Nat) (m : AList α) (ctr : Nat)
    (h : MapInv getId m ctr) : (m.map Prod.fst).Nodup := by
  rw [h.1]
  exact List.nodup_range' _ _

theorem mapInv_mapGet_of_mem {α : Type} (getId : α → Nat) (m : AList α) (ctr : Nat)
    (h : MapInv getId m ctr) (k : Nat) (v : α) (hmem : (k, v) ∈ m) :
    mapGet m k = some v :=
  mapGet_of_mem_of_nodup m k v hmem (mapInv_nodup_keys getId m ctr h)

/-! ### Claim theorems -/

theorem pairwise_three {α : Type} (r : α → α → Prop) (a b c : α)
    (hab : r a b) (hac : r a c) (hbc : r b c) : List.Pairwise r [a, b, c] := by
  refine List.Pairwise.cons ?_ (List.Pairwise.cons ?_ (List.Pairwise.cons ?_ List.Pairwise.nil))
  · intro x hx
    rcases List.mem_cons.1 hx with h | hx
    · rw [h]; exact hab
    · rcases List.mem_cons.1 hx with h | hx
      · rw [h]; exact hac
      · simp at hx
  · intro x hx
    rcases List.mem_cons.1 hx with h | hx
    · rw [h]; exact hbc
    · simp at hx
  · intro x hx
    simp at hx

theorem getJobs_eq_sort_filter (now : Int) (s : Store) (f : JobFilters) :
    getJobs now s f =
      ((mapValues s.jobs).filter (jobMatches now f)).mergeSort
        (fun a b => decide (b.postedDate ≤ a.postedDate)) := by
  unfold getJobs sortByPostedDesc
  rw [filterChain_eq_jobMatches]

/-- C1: for every store state and filter object, `getJobs` returns exactly
the jobs satisfying every supplied filter predicate (the conjunction
`jobMatches` of the seven independent per-filter predicates; unset filters
impose no constraint), sorted by `postedDate` descending; in particular for
three matching jobs posted at times t1 < t2 < t3 the result is
`[t3, t2, t1]` regardless of insertion order. -/
theorem getJobs_conjunction_sorted (now : Int) (s : Store) (f : JobFilters) :
    List.Perm (getJobs now s f) ((mapValues s.jobs).filter (jobMatches now f)) ∧
    (getJobs now s f).Pairwise (fun a b => b.postedDate ≤ a.postedDate) ∧
    (∀ j1 j2 j3 : Job,
      j1.postedDate < j2.postedDate → j2.postedDate < j3.postedDate →
      List.Perm ((mapValues s.jobs).filter (jobMatches now f)) [j1, j2, j3] →
      getJobs now s f = [j3, j2, j1]) := by
  have hperm : List.Perm (getJobs now s f)
      ((mapValues s.jobs).filter (jobMatches now f)) := by
    rw [getJobs_eq_sort_filter]
    exact List.mergeSort_perm _ _
  have hsorted : (getJobs now s f).Pairwise
      (fun a b => b.postedDate ≤ a.postedDate) := by
    rw [getJobs_eq_sort_filter]
    have h := @List.sorted_mergeSort Job
      (fun a b : Job => decide (b.postedDate ≤ a.postedDate))
      (fun a b c hab hbc => by
        simp only [decide_eq_true_eq] at *
        omega)
      (fun a b => by
        simpa using Int.le_total b.postedDate a.postedDate)
      ((mapValues s.jobs).filter (jobMatches now f))
    exact h.imp fun hab => by simpa using hab
  refine ⟨hperm, hsorted, ?_⟩
  intro j1 j2 j3 h12 h23 hp3
  have hPerm : List.Perm (getJobs now s f) [j3, j2, j1] := by
    refine (hperm.trans hp3).trans ?_
    have h : [j3, j2, j1] = [j1, j2, j3].reverse := rfl
    rw [h]
    exact (List.reverse_perm _).symm
  have hne3 : List.Pairwise (fun a b : Job => a.postedDate ≠ b.postedDate)
      [j3, j2, j1] :=
    pairwise_three _ j3 j2 j1 (by omega) (by omega) (by omega)
  have hneG : List.Pairwise (fun a b : Job => a.postedDate ≠ b.postedDate)
      (getJobs now s f) :=
    (List.Perm.pairwise_iff (fun h => Ne.symm h) hPerm).2 hne3
  have hstrictG : List.Pairwise (fun a b : Job => b.postedDate < a.postedDate)
      (getJobs now s f) :=
    (hsorted.and hneG).imp fun hab => lt_of_le_of_ne hab.1 (Ne.symm hab.2)
  have hstrict3 : List.Pairwise (fun a b : Job => b.postedDate < a.postedDate)
      [j3, j2, j1] :=
    pairwise_three _ j3 j2 j1 (by omega) (by omega) (by omega)
  haveI : IsAntisymm Job (fun a b => b.postedDate < a.postedDate) :=
    ⟨fun a b h1 h2 => absurd h1 (by omega)⟩
  exact List.eq_of_perm_of_sorted hPerm hstrictG hstrict3

/-- Witness for C1: with jobs posted at 100 < 200 < 300 inserted out of
order and no filters, `getJobs` returns them newest first. -/
theorem getJobs_conjunction_sorted_witness :
    getJobs 0 threeJobStore {} = [jobAt 3 300, jobAt 1 200, jobAt 2 100] :=
  (getJobs_conjunction_sorted 0 threeJobStore {}).2.2
    (jobAt 2 100) (jobAt 1 200) (jobAt 3 300)
    (by decide) (by decide) (by decide)

/-- C9: an empty-string value for the `search`, `location`, or `category`
filter, and an empty list for the `jobType` or `experienceLevel` filter, is
treated exactly like an unset filter: the result of `getJobs` is unchanged
when the empty value is replaced by an absent one. -/
theorem empty_filter_values_no_constraint (now : Int) (s : Store) (f : JobFilters) :
    getJobs now s { f with search := some "" } =
      getJobs now s { f with search := none } ∧
    getJobs now s { f with fLocation := some "" } =
      getJobs now s { f with fLocation := none } ∧
    getJobs now s { f with category := some "" } =
      getJobs now s { f with category := none } ∧
    getJobs now s { f with jobType := some [] } =
      getJobs now s { f with jobType := none } ∧
    getJobs now s { f with experienceLevel := some [] } =
      getJobs now s { f with experienceLevel := none } := by
  refine ⟨?_, ?_, ?_, ?_, ?_⟩ <;>
    simp [getJobs, applySearch, applyLocationFilter, applyCategoryFilter,
      applyJobTypeFilter, applyExperienceFilter, applyDatePostedFilter,
      applySalaryFilter]

/-- C4: `updateApplicationStatus` on an absent id returns the not-found
sentinel and leaves the whole store unchanged; on an existing id it returns
the stored application with only the status field replaced — every other
field is identical. -/
theorem updateApplicationStatus_spec (s : Store) (id : Nat) (st : String) :
    (mapGet s.applications id = none → updateApplicationStatus s id st = (none, s)) ∧
    (∀ a : Application, mapGet s.applications id = some a →
      (updateApplicationStatus s id st).1 =
        some { id := a.id, jobId := a.jobId, userId := a.userId, name := a.name
               email := a.email, phone := a.phone, resume := a.resume
               coverLetter := a.coverLetter, status := st, appliedDate := a.appliedDate }) := by
  constructor
  · intro h
    simp [updateApplicationStatus, h]
  · intro a h
    simp [updateApplicationStatus, h]

/-- Witness for C4 at a concrete store: id 5 is absent (sentinel, no
mutation), id 1 is present (only status replaced). -/
theorem updateApplicationStatus_spec_witness :
    updateApplicationStatus exampleApplicationStore 5 "reviewed" =
      (none, exampleApplicationStore) ∧
    (updateApplicationStatus exampleApplicationStore 1 "reviewed").1 =
      some { id := 1, jobId := 4, userId := 2, name := "Dana", email := "dana@mail.test"
             phone := "555-0100", resume := "cv.pdf", coverLetter := none
             status := "reviewed", appliedDate := 500 } :=
  ⟨(updateApplicationStatus_spec exampleApplicationStore 5 "reviewed").1 rfl,
   (updateApplicationStatus_spec exampleApplicationStore 1 "reviewed").2
     exampleApplication rfl⟩

theorem incrementCategoryJobCount_frame (s : Store) (id : Nat) :
    (incrementCategoryJobCount s id).2.users = s.users ∧
    (incrementCategoryJobCount s id).2.jobs = s.jobs ∧
    (incrementCategoryJobCount s id).2.applications = s.applications ∧
    (incrementCategoryJobCount s id).2.userIdCounter = s.userIdCounter ∧
    (incrementCategoryJobCount s id).2.jobIdCounter = s.jobIdCounter ∧
    (incrementCategoryJobCount s id).2.applicationIdCounter = s.applicationIdCounter ∧
    (incrementCategoryJobCount s id).2.categoryIdCounter = s.categoryIdCounter := by
  unfold incrementCategoryJobCount
  cases hg : mapGet s.categories id <;> simp

theorem createJob_fst (s : Store) (j : InsertJob) :
    (createJob s j).1 =
      { id := s.jobIdCounter, title := j.title, company := j.company
        jobLocation := j.jobLocation, description := j.description
        requirements := j.requirements, salary := j.salary, jobType := j.jobType
        category := j.category, experienceLevel := j.experienceLevel
        skills := j.skills, postedDate := j.postedDate, employerId := j.employerId } := by
  simp only [createJob]
  split <;> rfl

theorem createJob_frame (s : Store) (j : InsertJob) :
    (createJob s j).2.jobs = mapSet s.jobs s.jobIdCounter (createJob s j).1 ∧
    (createJob s j).2.users = s.users ∧
    (createJob s j).2.applications = s.applications ∧
    (createJob s j).2.jobIdCounter = s.jobIdCounter + 1 ∧
    (createJob s j).2.userIdCounter = s.userIdCounter ∧
    (createJob s j).2.applicationIdCounter = s.applicationIdCounter ∧
    (createJob s j).2.categoryIdCounter = s.categoryIdCounter := by
  refine ⟨?_, ?_, ?_, ?_, ?_, ?_, ?_⟩ <;>
    (simp only [createJob]
     split <;>
       simp [(incrementCategoryJobCount_frame _ _).1,
         (incrementCategoryJobCount_frame _ _).2.1,
         (incrementCategoryJobCount_frame _ _).2.2.1,
         (incrementCategoryJobCount_frame _ _).2.2.2.1,
         (incrementCategoryJobCount_frame _ _).2.2.2.2.1,
         (incrementCategoryJobCount_frame _ _).2.2.2.2.2.1,
         (incrementCategoryJobCount_frame _ _).2.2.2.2.2.2])

/-- C5: create-then-get roundtrip.  For users, jobs and categories the
record returned by the create operation, looked up by its returned id with
the corresponding get operation immediately after, is field-for-field
identical to the returned record.  Applications have no get-by-id
operation; the created record is retrieved through `getApplicationsByJob`
for its job: it is an element of that result, and the unique element
bearing its id. -/
theorem create_get_roundtrip (s : Store) (hs : Reachable s) (u : InsertUser)
    (j : InsertJob) (a : InsertApplication) (c : InsertCategory) :
    getUser (createUser s u).2 (createUser s u).1.id = some (createUser s u).1 ∧
    getJob (createJob s j).2 (createJob s j).1.id = some (createJob s j).1 ∧
    getCategory (createCategory s c).2 (createCategory s c).1.id =
      some (createCategory s c).1 ∧
    (createApplication s a).1 ∈
      getApplicationsByJob (createApplication s a).2 a.jobId ∧
    (∀ x ∈ getApplicationsByJob (createApplication s a).2 a.jobId,
      x.id = (createApplication s a).1.id → x = (createApplication s a).1) := by
  obtain ⟨hu, hj, ha, hc⟩ := storeInv_reachable s hs
  have happ : (createApplication s a).2.applications =
      s.applications ++ [(s.applicationIdCounter, (createApplication s a).1)] := by
    simp only [createApplication]
    exact mapSet_of_not_mem_keys _ _ _ (mapInv_fresh_key _ _ _ ha)
  refine ⟨?_, ?_, ?_, ?_, ?_⟩
  · simp [getUser, createUser, mapGet_mapSet_self]
  · unfold getJob
    rw [(createJob_frame s j).1, createJob_fst]
    exact mapGet_mapSet_self _ _ _
  · simp [getCategory, createCategory, mapGet_mapSet_self]
  · unfold getApplicationsByJob mapValues
    rw [happ]
    refine List.mem_filter.2 ⟨?_, ?_⟩
    · rw [List.map_append]
      exact List.mem_append_right _ (by simp)
    · simp [createApplication]
  · intro x hx hxid
    unfold getApplicationsByJob mapValues at hx
    rw [happ, List.map_append] at hx
    obtain ⟨hmem, -⟩ := List.mem_filter.1 hx
    rcases List.mem_append.1 hmem with hmem | hmem
    · obtain ⟨p, hp, hpx⟩ := List.mem_map.1 hmem
      have hpid : p.2.id = p.1 := ha.2.1 p hp
      have hkey : p.1 ∈ s.applications.map Prod.fst := List.mem_map_of_mem Prod.fst hp
      rw [ha.1] at hkey
      have hlt := List.mem_range'_1.1 hkey
      have hctr : s.applicationIdCounter = s.applications.length + 1 := ha.2.2
      have hxctr : x.id = s.applicationIdCounter := by
        rw [hxid]; simp [createApplication]
      rw [← hpx] at hxctr
      omega
    · simpa using hmem

/-- Witness for C5 at the seeded store with concrete insert payloads. -/
theorem create_get_roundtrip_witness :
    getUser (createUser initialStore aliceInsert).2
        (createUser initialStore aliceInsert).1.id =
      some (createUser initialStore aliceInsert).1 ∧
    getJob (createJob initialStore techJobInsert).2
        (createJob initialStore techJobInsert).1.id =
      some (createJob initialStore techJobInsert).1 ∧
    getCategory (createCategory initialStore remoteCategoryInsert).2
        (createCategory initialStore remoteCategoryInsert).1.id =
      some (createCategory initialStore remoteCategoryInsert).1 ∧
    (createApplication initialStore danaInsert).1 ∈
      getApplicationsByJob (createApplication initialStore danaInsert).2
        danaInsert.jobId ∧
    (∀ x ∈ getApplicationsByJob (createApplication initialStore danaInsert).2
        danaInsert.jobId,
      x.id = (createApplication initialStore danaInsert).1.id →
      x = (createApplication initialStore danaInsert).1) :=
  create_get_roundtrip initialStore ⟨[], rfl⟩ aliceInsert techJobInsert
    danaInsert remoteCategoryInsert

/-- C2: when the `salaryRange` filter is active with a parseable threshold
`t` (the integer from stripping all non-digits from the filter value), a job
is kept by `getJobs` iff it is stored and its `salary` text contains a
dollar-amount token (`$` then digits with optional comma grouping) whose
first match parses to a value `m` with `t ≤ m`; jobs with no salary or no
parseable token are excluded. -/
theorem getJobs_salaryRange_spec (now : Int) (s : Store) (v : String) (j : Job)
    (t : Nat) (hv : v ≠ "") (ht : salaryThreshold v = some t) :
    (j ∈ getJobs now s { salaryRange := some v } ↔
      j ∈ mapValues s.jobs ∧
      ∃ sal m, j.salary = some sal ∧ jobMinSalary sal = some m ∧ t ≤ m) := by
  rw [getJobs_eq_sort_filter]
  simp only [List.mem_mergeSort, List.mem_filter]
  constructor
  · rintro ⟨hmem, hmatch⟩
    refine ⟨hmem, ?_⟩
    cases hsal : j.salary with
    | none =>
      simp [jobMatches, matchesSearch, matchesLocation, matchesCategory,
        matchesJobType, matchesExperience, matchesDatePosted, matchesSalary,
        hv, ht, hsal] at hmatch
    | some sal =>
      cases hmin : jobMinSalary sal with
      | none =>
        simp [jobMatches, matchesSearch, matchesLocation, matchesCategory,
          matchesJobType, matchesExperience, matchesDatePosted, matchesSalary,
          hv, ht, hsal, hmin] at hmatch
      | some m =>
        simp [jobMatches, matchesSearch, matchesLocation, matchesCategory,
          matchesJobType, matchesExperience, matchesDatePosted, matchesSalary,
          hv, ht, hsal, hmin] at hmatch
        exact ⟨sal, m, rfl, hmin, hmatch⟩
  · rintro ⟨hmem, sal, m, hsal, hmin, htm⟩
    refine ⟨hmem, ?_⟩
    simp [jobMatches, matchesSearch, matchesLocation, matchesCategory,
      matchesJobType, matchesExperience, matchesDatePosted, matchesSalary,
      hv, ht, hsal, hmin, htm]

/-- Witness for C2: the store holding the "$60,000 - $80,000" job and the
"$55,000" filter (threshold 55000). -/
theorem getJobs_salaryRange_spec_witness :
    (exampleJob ∈ getJobs 0 exampleJobStore { salaryRange := some "$55,000" } ↔
      exampleJob ∈ mapValues exampleJobStore.jobs ∧
      ∃ sal m, exampleJob.salary = some sal ∧ jobMinSalary sal = some m ∧
        55000 ≤ m) :=
  getJobs_salaryRange_spec 0 exampleJobStore "$55,000" exampleJob 55000
    (by decide) rfl

theorem mapInv_mapGet_value {α : Type} (getId : α → Nat) (m : AList α) (ctr : Nat)
    (h : MapInv getId m ctr) (v : α) (hv : v ∈ mapValues m) :
    mapGet m (getId v) = some v := by
  obtain ⟨p, hp, hpv⟩ := List.mem_map.1 hv
  obtain ⟨k, val⟩ := p
  simp only at hpv
  subst hpv
  have hid := h.2.1 (k, val) hp
  simp only at hid
  rw [hid]
  exact mapInv_mapGet_of_mem getId m ctr h k val hp

/-- In a map whose keys are consecutive ascending integers, `find?` over the
values returns the entry with the least key among those satisfying the
predicate. -/
theorem find?_of_sorted_keys {α : Type} (pred : α → Bool) :
    ∀ (m : AList α) (a : Nat), m.map Prod.fst = List.range' a m.length →
    ∀ p : Nat × α, p ∈ m → pred p.2 = true →
    (∀ q ∈ m, pred q.2 = true → p.1 ≤ q.1) →
    (mapValues m).find? pred = some p.2
  | [], _, _, p, hp, _, _ => absurd hp (List.not_mem_nil p)
  | q :: rest, a, hkeys, p, hp, hpred, hmin => by
    rw [List.length_cons, List.range'_succ, List.map_cons] at hkeys
    have hq1 : q.1 = a := (List.cons.injEq _ _ _ _ ▸ hkeys).1
    have hrest : rest.map Prod.fst = List.range' (a + 1) rest.length :=
      (List.cons.injEq _ _ _ _ ▸ hkeys).2
    cases hq : pred q.2 with
    | true =>
      have hqp : q.2 = p.2 := by
        rcases List.mem_cons.1 hp with h | h
        · rw [h]
        · have h1 : p.1 ∈ rest.map Prod.fst := List.mem_map_of_mem Prod.fst h
          rw [hrest] at h1
          have h2 := List.mem_range'_1.1 h1
          have h3 := hmin q (List.mem_cons_self q rest) hq
          omega
      rw [hqp] at hq
      simp [mapValues, List.find?_cons, hq, hqp]
    | false =>
      have hprest : p ∈ rest := by
        rcases List.mem_cons.1 hp with h | h
        · rw [h] at hpred; rw [hpred] at hq; cases hq
        · exact h
      have := find?_of_sorted_keys pred rest (a + 1) hrest p hprest hpred
        (fun r hr hrp => hmin r (List.mem_cons_of_mem q hr) hrp)
      simpa [mapValues, List.find?_cons, hq] using this

/-- The effect of `createJob` on the categories map: no change when no
category name matches, otherwise an in-place increment at the id of the
category `find?` returns. -/
theorem createJob_categories (s : Store) (hinv : StoreInv s) (j : InsertJob) :
    ((mapValues s.categories).find? (fun cat => cat.name = j.category) = none →
      (createJob s j).2.categories = s.categories) ∧
    (∀ cat, (mapValues s.categories).find? (fun cat => cat.name = j.category) =
        some cat →
      (createJob s j).2.categories =
        mapSet s.categories cat.id
          { id := cat.id, name := cat.name, icon := cat.icon
            jobCount := cat.jobCount + 1 }) := by
  constructor
  · intro hnone
    simp only [createJob]
    split
    · rename_i cat heq
      rw [hnone] at heq
      cases heq
    · rfl
  · intro cat hsome
    simp only [createJob]
    split
    · rename_i cat' heq
      rw [hsome] at heq
      injection heq with heq'
      subst heq'
      have hmem : cat ∈ mapValues s.categories := List.mem_of_find?_eq_some hsome
      have hget : mapGet s.categories cat.id =
          some cat := mapInv_mapGet_value _ _ _ hinv.2.2.2 cat hmem
      simp only [incrementCategoryJobCount, hget]
    · rename_i heq
      rw [hsome] at heq
      cases heq

/-- C3: `createJob` stores and returns the new job, and increments by
exactly 1 the jobCount of the category whose name equals the job's category
(exact match), leaving every other category unchanged; when no category
name matches, the categories are completely unchanged. -/
theorem createJob_category_effect (s : Store) (hs : Reachable s) (j : InsertJob) :
    (createJob s j).1 =
      { id := s.jobIdCounter, title := j.title, company := j.company
        jobLocation := j.jobLocation, description := j.description
        requirements := j.requirements, salary := j.salary, jobType := j.jobType
        category := j.category, experienceLevel := j.experienceLevel
        skills := j.skills, postedDate := j.postedDate, employerId := j.employerId } ∧
    (∀ p ∈ s.categories, p.2.name ≠ j.category →
      mapGet (createJob s j).2.categories p.1 = some p.2) ∧
    ((∀ cat ∈ mapValues s.categories, cat.name ≠ j.category) →
      (createJob s j).2.categories = s.categories) ∧
    (∀ p ∈ s.categories, p.2.name = j.category →
      (∀ q ∈ s.categories, q.2.name = j.category → q.2 = p.2) →
      mapGet (createJob s j).2.categories p.1 =
        some { id := p.2.id, name := p.2.name, icon := p.2.icon
               jobCount := p.2.jobCount + 1 }) := by
  have hinv := storeInv_reachable s hs
  refine ⟨createJob_fst s j, ?_, ?_, ?_⟩
  · intro p hp hne
    have hgetp : mapGet s.categories p.1 = some p.2 :=
      mapInv_mapGet_of_mem _ _ _ hinv.2.2.2 p.1 p.2 hp
    cases hfind : (mapValues s.categories).find? (fun cat => cat.name = j.category) with
    | none =>
      rw [(createJob_categories s hinv j).1 hfind]
      exact hgetp
    | some cat =>
      rw [(createJob_categories s hinv j).2 cat hfind]
      have hcatname : cat.name = j.category := by
        have := List.find?_some hfind
        simpa using this
      have hne' : p.1 ≠ cat.id := by
        intro he
        have hgetc : mapGet s.categories cat.id =
            some cat := mapInv_mapGet_value _ _ _ hinv.2.2.2 cat
              (List.mem_of_find?_eq_some hfind)
        rw [← he, hgetp] at hgetc
        injection hgetc with h2
        rw [h2] at hne
        exact hne hcatname
      rw [mapGet_mapSet_ne _ _ _ _ hne']
      exact hgetp
  · intro hall
    refine (createJob_categories s hinv j).1 ?_
    refine List.find?_eq_none.2 ?_
    intro cat hcat
    simpa using hall cat hcat
  · intro p hp hname huniq
    have hgetp : mapGet s.categories p.1 = some p.2 :=
      mapInv_mapGet_of_mem _ _ _ hinv.2.2.2 p.1 p.2 hp
    have hmemval : p.2 ∈ mapValues s.categories := List.mem_map_of_mem Prod.snd hp
    have hex : ∃ cat, (mapValues s.categories).find?
        (fun cat => cat.name = j.category) = some cat := by
      rw [← Option.isSome_iff_exists, List.find?_isSome]
      exact ⟨p.2, hmemval, by simpa using hname⟩
    obtain ⟨cat, hfind⟩ := hex
    have hcatp : cat = p.2 := by
      obtain ⟨q, hq, hq2⟩ := List.mem_map.1 (List.mem_of_find?_eq_some hfind)
      have hcatname : cat.name = j.category := by
        have := List.find?_some hfind
        simpa using this
      rw [← hq2]
      exact huniq q hq (by rw [hq2]; exact hcatname)
    have hpid : p.2.id = p.1 := hinv.2.2.2.2.1 p hp
    rw [(createJob_categories s hinv j).2 cat hfind, hcatp, hpid]
    exact mapGet_mapSet_self _ _ _

/-- Witness for C3 at the seeded store: creating a "Technology" job returns
the job record and bumps the Technology category (id 1) from 1245 to
1246. -/
theorem createJob_category_effect_witness :
    (createJob initialStore techJobInsert).1 =
      { id := 1, title := "Engineer", company := "Acme", jobLocation := "NYC"
        description := "Build things", requirements := "TS"
        salary := some "$100,000", jobType := "full-time"
        category := "Technology", experienceLevel := "senior", skills := ["ts"]
        postedDate := 3000, employerId := 3 } ∧
    mapGet (createJob initialStore techJobInsert).2.categories 1 =
      some { id := 1, name := "Technology", icon := "fa-laptop-code"
             jobCount := 1246 } :=
  ⟨(createJob_category_effect initialStore ⟨[], rfl⟩ techJobInsert).1,
   (createJob_category_effect initialStore ⟨[], rfl⟩ techJobInsert).2.2.2
     (1, { id := 1, name := "Technology", icon := "fa-laptop-code"
           jobCount := 1245 })
     (by decide) (by decide) (by decide)⟩

/-- C10: when two or more stored categories share the job's category name,
`createJob` increments only the earliest-created (lowest-id) matching
category; every other category — matching or not — is unchanged. -/
theorem createJob_lowest_id_match (s : Store) (hs : Reachable s) (j : InsertJob) :
    ∀ p ∈ s.categories, p.2.name = j.category →
      (∀ q ∈ s.categories, q.2.name = j.category → p.1 ≤ q.1) →
      (mapGet (createJob s j).2.categories p.1 =
        some { id := p.2.id, name := p.2.name, icon := p.2.icon
               jobCount := p.2.jobCount + 1 } ∧
       ∀ q ∈ s.categories, q.1 ≠ p.1 →
         mapGet (createJob s j).2.categories q.1 = some q.2) := by
  have hinv := storeInv_reachable s hs
  intro p hp hname hmin
  have hfind : (mapValues s.categories).find?
      (fun cat => cat.name = j.category) = some p.2 := by
    refine find?_of_sorted_keys _ s.categories 1 hinv.2.2.2.1 p hp
      (by simpa using hname) ?_
    intro q hq hql
    exact hmin q hq (by simpa using hql)
  have hcats := (createJob_categories s hinv j).2 p.2 hfind
  have hpid : p.2.id = p.1 := hinv.2.2.2.2.1 p hp
  rw [hcats, hpid]
  constructor
  · exact mapGet_mapSet_self _ _ _
  · intro q hq hqne
    rw [mapGet_mapSet_ne _ _ _ _ hqne]
    exact mapInv_mapGet_of_mem _ _ _ hinv.2.2.2 q.1 q.2 hq

/-- Witness for C10: with two "Remote Work" categories (ids 9 and 10),
creating a "Remote Work" job bumps only id 9 (5 → 6) and leaves every other
category entry unchanged. -/
theorem createJob_lowest_id_match_witness :
    mapGet (createJob dupCategoryStore remoteJobInsert).2.categories 9 =
      some { id := 9, name := "Remote Work", icon := "fa-house", jobCount := 6 } ∧
    ∀ q ∈ dupCategoryStore.categories, q.1 ≠ 9 →
      mapGet (createJob dupCategoryStore remoteJobInsert).2.categories q.1 =
        some q.2 :=
  createJob_lowest_id_match dupCategoryStore ⟨dupCategoryOps, rfl⟩ remoteJobInsert
    (9, { id := 9, name := "Remote Work", icon := "fa-house", jobCount := 5 })
    (by decide) (by decide) (by decide)

theorem idPreserved_refl {α : Type} (getId : α → Nat) (m : AList α) :
    IdPreserved getId m m :=
  fun _ r hk => ⟨r, hk, rfl⟩

theorem idPreserved_of_eq {α : Type} (getId : α → Nat) (m m' : AList α)
    (h : m' = m) : IdPreserved getId m m' := by
  rw [h]
  exact idPreserved_refl getId m

theorem idPreserved_create {α : Type} (getId : α → Nat) (m : AList α) (ctr : Nat)
    (hinv : MapInv getId m ctr) (v : α) :
    IdPreserved getId m (mapSet m ctr v) := by
  intro k r hk
  rw [mapSet_of_not_mem_keys _ _ _ (mapInv_fresh_key getId m ctr hinv)]
  exact ⟨r, mapGet_append_left _ _ _ _ hk, rfl⟩

theorem idPreserved_update {α : Type} (getId : α → Nat) (m : AList α)
    (id : Nat) (v v' : α) (hget : mapGet m id = some v)
    (hid : getId v' = getId v) :
    IdPreserved getId m (mapSet m id v') := by
  intro k r hk
  by_cases hke : k = id
  · subst hke
    rw [hk] at hget
    injection hget with hget
    exact ⟨v', mapGet_mapSet_self _ _ _, by rw [hid, hget]⟩
  · rw [mapGet_mapSet_ne _ _ _ _ hke]
    exact ⟨r, hk, rfl⟩

theorem updateApplicationStatus_frame (s : Store) (id : Nat) (st : String) :
    (updateApplicationStatus s id st).2.users = s.users ∧
    (updateApplicationStatus s id st).2.jobs = s.jobs ∧
    (updateApplicationStatus s id st).2.categories = s.categories := by
  unfold updateApplicationStatus
  cases hg : mapGet s.applications id <;> simp

/-- C6: in every reachable store state, for each entity type, the assigned
ids are exactly 1..n in insertion order (unique, monotonically increasing
from 1), records carry their own key as `id`, the next create assigns the
counter value — an id never issued before — and no operation removes an id
or rebinds it to a record with a different `id` field. -/
theorem reachable_id_discipline (s : Store) (hs : Reachable s) :
    (s.users.map Prod.fst = List.range' 1 s.users.length ∧
     (s.users.map Prod.fst).Nodup ∧ (∀ p ∈ s.users, p.2.id = p.1) ∧
     ∀ u : InsertUser, (createUser s u).1.id = s.userIdCounter ∧
       s.userIdCounter ∉ s.users.map Prod.fst) ∧
    (s.jobs.map Prod.fst = List.range' 1 s.jobs.length ∧
     (s.jobs.map Prod.fst).Nodup ∧ (∀ p ∈ s.jobs, p.2.id = p.1) ∧
     ∀ j : InsertJob, (createJob s j).1.id = s.jobIdCounter ∧
       s.jobIdCounter ∉ s.jobs.map Prod.fst) ∧
    (s.applications.map Prod.fst = List.range' 1 s.applications.length ∧
     (s.applications.map Prod.fst).Nodup ∧ (∀ p ∈ s.applications, p.2.id = p.1) ∧
     ∀ a : InsertApplication,
       (createApplication s a).1.id = s.applicationIdCounter ∧
       s.applicationIdCounter ∉ s.applications.map Prod.fst) ∧
    (s.categories.map Prod.fst = List.range' 1 s.categories.length ∧
     (s.categories.map Prod.fst).Nodup ∧ (∀ p ∈ s.categories, p.2.id = p.1) ∧
     ∀ c : InsertCategory, (createCategory s c).1.id = s.categoryIdCounter ∧
       s.categoryIdCounter ∉ s.categories.map Prod.fst) ∧
    (∀ op : Op,
      IdPreserved User.id s.users (applyOp s op).users ∧
      IdPreserved Job.id s.jobs (applyOp s op).jobs ∧
      IdPreserved Application.id s.applications (applyOp s op).applications ∧
      IdPreserved Category.id s.categories (applyOp s op).categories) := by
  obtain ⟨hu, hj, ha, hc⟩ := storeInv_reachable s hs
  refine ⟨⟨hu.1, mapInv_nodup_keys _ _ _ hu, hu.2.1,
            fun u => ⟨rfl, mapInv_fresh_key _ _ _ hu⟩⟩,
          ⟨hj.1, mapInv_nodup_keys _ _ _ hj, hj.2.1,
            fun j => ⟨by rw [createJob_fst], mapInv_fresh_key _ _ _ hj⟩⟩,
          ⟨ha.1, mapInv_nodup_keys _ _ _ ha, ha.2.1,
            fun a => ⟨rfl, mapInv_fresh_key _ _ _ ha⟩⟩,
          ⟨hc.1, mapInv_nodup_keys _ _ _ hc, hc.2.1,
            fun c => ⟨rfl, mapInv_fresh_key _ _ _ hc⟩⟩, ?_⟩
  intro op
  cases op with
  | doCreateUser u =>
    exact ⟨idPreserved_create _ _ _ hu _, idPreserved_refl _ _,
           idPreserved_refl _ _, idPreserved_refl _ _⟩
  | doCreateJob j =>
    refine ⟨idPreserved_of_eq _ _ _ (createJob_frame s j).2.1, ?_,
            idPreserved_of_eq _ _ _ (createJob_frame s j).2.2.1, ?_⟩
    · show IdPreserved Job.id s.jobs (createJob s j).2.jobs
      rw [(createJob_frame s j).1]
      exact idPreserved_create _ _ _ hj _
    · show IdPreserved Category.id s.categories (createJob s j).2.categories
      cases hfind : (mapValues s.categories).find?
          (fun cat => cat.name = j.category) with
      | none =>
        exact idPreserved_of_eq _ _ _
          ((createJob_categories s ⟨hu, hj, ha, hc⟩ j).1 hfind)
      | some cat =>
        rw [(createJob_categories s ⟨hu, hj, ha, hc⟩ j).2 cat hfind]
        exact idPreserved_update _ _ _ cat _
          (mapInv_mapGet_value _ _ _ hc cat (List.mem_of_find?_eq_some hfind)) rfl
  | doCreateApplication a =>
    exact ⟨idPreserved_refl _ _, idPreserved_refl _ _,
           idPreserved_create _ _ _ ha _, idPreserved_refl _ _⟩
  | doCreateCategory c =>
    exact ⟨idPreserved_refl _ _, idPreserved_refl _ _,
           idPreserved_refl _ _, idPreserved_create _ _ _ hc _⟩
  | doUpdateApplicationStatus id st =>
    refine ⟨idPreserved_of_eq _ _ _ (updateApplicationStatus_frame s id st).1,
            idPreserved_of_eq _ _ _ (updateApplicationStatus_frame s id st).2.1, ?_,
            idPreserved_of_eq _ _ _ (updateApplicationStatus_frame s id st).2.2⟩
    show IdPreserved Application.id s.applications
      (updateApplicationStatus s id st).2.applications
    unfold updateApplicationStatus
    cases hg : mapGet s.applications id with
    | none => exact idPreserved_refl _ _
    | some app =>
      simp only
      exact idPreserved_update _ _ _ app _ hg rfl
  | doIncrementCategoryJobCount id =>
    refine ⟨idPreserved_of_eq _ _ _ (incrementCategoryJobCount_frame s id).1,
            idPreserved_of_eq _ _ _ (incrementCategoryJobCount_frame s id).2.1,
            idPreserved_of_eq _ _ _ (incrementCategoryJobCount_frame s id).2.2.1, ?_⟩
    show IdPreserved Category.id s.categories
      (incrementCategoryJobCount s id).2.categories
    unfold incrementCategoryJobCount
    cases hg : mapGet s.categories id with
    | none => exact idPreserved_refl _ _
    | some cat =>
      simp only
      exact idPreserved_update _ _ _ cat _ hg rfl

/-- Witness for C6 at the seeded store: its categories carry ids 1..8 in
order, each record's id field is its key, and the next `createCategory`
returns counter 9, an id not yet issued. -/
theorem reachable_id_discipline_witness :
    initialStore.categories.map Prod.fst =
      List.range' 1 initialStore.categories.length ∧
    (initialStore.categories.map Prod.fst).Nodup ∧
    (∀ p ∈ initialStore.categories, p.2.id = p.1) ∧
    ∀ c : InsertCategory,
      (createCategory initialStore c).1.id = initialStore.categoryIdCounter ∧
      initialStore.categoryIdCounter ∉ initialStore.categories.map Prod.fst :=
  (reachable_id_discipline initialStore ⟨[], rfl⟩).2.2.2.1

/-- C8: POST /api/users with a well-formed body.  If no stored user bears
the requested username, the request succeeds with 201 and the created
record's id was never issued to any user, the record being appended; if
some stored user bears exactly that username (case-sensitive `===`), the
request fails with the 400 duplicate-username error and the store — in
particular the user collection — is unchanged. -/
theorem postUsers_spec (s : Store) (hs : Reachable s) (b : UserBody)
    (u : InsertUser) (hb : parseInsertUser b = some u) :
    ((∀ w ∈ mapValues s.users, w.username ≠ u.username) →
      (postUsers s b).1 = .ok 201 (createUser s u).1 ∧
      (∀ p ∈ s.users, p.2.id ≠ (createUser s u).1.id) ∧
      (postUsers s b).2.users =
        s.users ++ [((createUser s u).1.id, (createUser s u).1)]) ∧
    ((∃ w ∈ mapValues s.users, w.username = u.username) →
      postUsers s b = (.err 400 "Username already exists", s)) := by
  obtain ⟨hu, -, -, -⟩ := storeInv_reachable s hs
  constructor
  · intro hnone
    have hfind : getUserByUsername s u.username = none := by
      unfold getUserByUsername
      refine List.find?_eq_none.2 ?_
      intro w hw
      simpa using hnone w hw
    refine ⟨by simp [postUsers, hb, hfind], ?_, ?_⟩
    · intro p hp heq
      have hid : p.2.id = p.1 := hu.2.1 p hp
      have hkey : p.1 ∈ s.users.map Prod.fst := List.mem_map_of_mem Prod.fst hp
      rw [hu.1] at hkey
      have hrange := List.mem_range'_1.1 hkey
      have hctr : s.userIdCounter = s.users.length + 1 := hu.2.2
      simp only [createUser] at heq
      omega
    · simp only [postUsers, hb, hfind, createUser]
      exact mapSet_of_not_mem_keys _ _ _ (mapInv_fresh_key _ _ _ hu)
  · rintro ⟨w, hw, hweq⟩
    have hfind : ∃ w', getUserByUsername s u.username = some w' := by
      rw [← Option.isSome_iff_exists]
      unfold getUserByUsername
      rw [List.find?_isSome]
      exact ⟨w, hw, by simpa using hweq⟩
    obtain ⟨w', hw'⟩ := hfind
    simp [postUsers, hb, hw']

/-- Witness for C8: on the seeded store "alice" is fresh, so the request
succeeds with 201 and id 1; repeating it on the resulting store hits the
duplicate check, fails with 400 and mutates nothing. -/
theorem postUsers_spec_witness :
    ((postUsers initialStore aliceBody).1 =
        .ok 201 (createUser initialStore aliceInsert).1 ∧
      (∀ p ∈ initialStore.users,
        p.2.id ≠ (createUser initialStore aliceInsert).1.id) ∧
      (postUsers initialStore aliceBody).2.users =
        initialStore.users ++
          [((createUser initialStore aliceInsert).1.id,
            (createUser initialStore aliceInsert).1)]) ∧
    postUsers storeWithAlice aliceBody =
      (.err 400 "Username already exists", storeWithAlice) :=
  ⟨(postUsers_spec initialStore ⟨[], rfl⟩ aliceBody aliceInsert rfl).1 (by decide),
   (postUsers_spec storeWithAlice ⟨[.doCreateUser aliceInsert], rfl⟩ aliceBody
       aliceInsert rfl).2
     ⟨aliceUser, by decide, by decide⟩⟩

/-- C7 (refuted by the code as written): the spec says an omitted
`postedDate` on POST /api/jobs is defaulted to the current time, and an
omitted `status` / `appliedDate` on POST /api/applications are defaulted to
"applied" / the current time.  In the code these columns are `notNull`
without database defaults, so `createInsertSchema` makes them required:
`insertJobSchema.parse` / `insertApplicationSchema.parse` throw before the
handlers' defaulting branches (which are dead code) can run, and each such
request is rejected with a 400 validation error, creating nothing. -/
theorem omitted_defaults_rejected :
    (postJobs initialStore jobBodyNoPostedDate).1 = .err 400 "validation error" ∧
    (postJobs initialStore jobBodyNoPostedDate).2 = initialStore ∧
    (postApplications initialStore applBodyNoStatus).1 =
      .err 400 "validation error" ∧
    (postApplications initialStore applBodyNoStatus).2 = initialStore ∧
    (postApplications initialStore applBodyNoAppliedDate).1 =
      .err 400 "validation error" ∧
    (postApplications initialStore applBodyNoAppliedDate).2 = initialStore :=
  ⟨rfl, rfl, rfl, rfl, rfl, rfl⟩

end JobHunter
